import Mathlib

/-!
Shallow embedding of the `scientist` Go package (src/scientist.go).

Modelling decisions, all driven by the source:

* A Go `error` is represented by its message text (`String`); `nil` is `none`.
  The code only ever inspects errors through `Err.Error()` (message text), so
  nothing is lost.
* A Go `interface{}` value is `Option V` for a type parameter `V`; the Go
  `nil` interface value (e.g. the zero `Observation.Value` produced on
  timeout) is `none`.
* A behavior `func() (interface{}, error)` is `Unit → Option V × Option String`.
* `Observation.Experiment`, `Started` and `Runtime` (wall-clock timing) are
  not modelled: no claim is about them and real time has no shallow
  embedding.  `Result.Observations` is the parallel slice
  `control :: candidates` and is likewise omitted.
* `e.behaviors` is a Go map.  It is modelled as the registration-ordered
  association list, and because Go map iteration order is unspecified, the
  sequential loop `for bname, b := range e.behaviors` receives its iteration
  sequence `order` as an explicit parameter.  Likewise the concurrent
  receive loop `for res := range resultChan` observes goroutine completions
  in an arbitrary order: that order, together with the per-behavior
  timed-out-or-completed outcome of the `select`, is the explicit `sched`
  parameter.  A run of the Go program corresponds to some choice of these
  parameters (a permutation of the registered behaviors).
* `Experiment` itself lives in a file that is not under src (only
  src/scientist.go and its tests are); the fields and callbacks below are
  taken from their use sites in src/scientist.go and from the spec's
  configuration model: `beforeRun` is modelled by the error it returns,
  `publisher` by the caller-supplied sink function, and `errorReporter`
  (a pure side effect on a slice already present in the returned Result)
  is not modelled.
-/

namespace Scientist

/-- A behavior: Go `func() (interface{}, error)`. -/
abbrev Behavior (V : Type) := Unit → Option V × Option String

/-- Go `Observation` (src/scientist.go:15), without the experiment back
pointer and the timing fields. -/
structure Observation (V : Type) where
  name : String
  value : Option V := none
  err : Option String := none
deriving DecidableEq

/-- Go `ResultError` (src/scientist.go:258). -/
structure ResultError where
  operation : String
  experiment : String
  err : String
deriving DecidableEq

/-- Go `Result` (src/scientist.go:28), without the experiment back pointer
and the redundant `Observations` slice. -/
structure Result (V : Type) where
  control : Option (Observation V) := none
  candidates : List (Observation V) := []
  ignored : List (Observation V) := []
  mismatched : List (Observation V) := []
  errors : List ResultError := []
deriving DecidableEq

/-- The experiment configuration consumed read-only by src/scientist.go.
The defining file is not under src; fields are reconstructed from their
use sites in `Run`, `matching`, `ignoring` and `observe`, and from the
spec's configuration surface. -/
structure Experiment (V : Type) where
  name : String
  behaviors : List (String × Behavior V)
  comparator : Option V → Option V → Bool × Option String
  ignores : List (Option V → Option V → Bool × Option String)
  runConcurrently : Bool
  timeout : Option Nat
  beforeRunErr : Option String
  publisher : Result V → Option String

variable {V : Type}

/-- Modelled from the spec: `e.resultErr(op, err)` is defined in the
experiment configuration file absent from src; per the spec's
OperationError record it carries the operation tag, the experiment name
and the error. -/
def Experiment.resultErr (e : Experiment V) (op : String) (m : String) : ResultError :=
  ⟨op, e.name, m⟩

/-- Go `behaviorNotFound` (src/scientist.go:230), as the error message. -/
def behaviorNotFound (e : Experiment V) (nm : String) : String :=
  "Behavior \"" ++ nm ++ "\" not found for experiment \"" ++ e.name ++ "\""

/-- Go map read `e.behaviors[name]`: `none` when the name is absent. -/
def lookupB (bs : List (String × Behavior V)) (nm : String) : Option (Behavior V) :=
  match bs with
  | [] => none
  | p :: rest => if p.1 = nm then some p.2 else lookupB rest nm

/-- Go `observe` (src/scientist.go:234).  Total: every failure of the
behavior is captured in the observation, never raised. -/
def observe (e : Experiment V) (nm : String) (b : Option (Behavior V)) : Observation V :=
  let b := match b with
    | none => lookupB e.behaviors nm
    | some f => some f
  match b with
  | none => { name := nm, err := some (behaviorNotFound e nm) }
  | some f =>
    let r := f ()
    { name := nm, value := r.1, err := r.2 }

/-- Go `matching` (src/scientist.go:200). -/
def matching (e : Experiment V) (control candidate : Observation V) : Bool × Option String :=
  match control.err, candidate.err with
  | none, none => e.comparator control.value candidate.value
  | some cm, some dm => (decide (cm = dm), none)
  | _, _ => (false, none)

/-- Loop body of Go `ignoring` (src/scientist.go:215). -/
def ignoringAux (cv dv : Option V) :
    List (Option V → Option V → Bool × Option String) → Bool × Option String
  | [] => (false, none)
  | i :: rest =>
    match i cv dv with
    | (_, some m) => (false, some m)
    | (ok, none) => if ok then (true, none) else ignoringAux cv dv rest

/-- Go `ignoring` (src/scientist.go:215). -/
def ignoring (e : Experiment V) (control candidate : Observation V) : Bool × Option String :=
  ignoringAux control.value candidate.value e.ignores

/-- Go `processObservation` (src/scientist.go:176). -/
def processObservation (e : Experiment V) (r : Result V)
    (control candidate : Observation V) : Result V :=
  match matching e control candidate with
  | (mok, merr) =>
    let ok := match merr with | some _ => false | none => mok
    let r := match merr with
      | some m => { r with errors := r.errors ++ [e.resultErr "compare" m] }
      | none => r
    if ok then r
    else
      match ignoring e control candidate with
      | (iok, ierr) =>
        let ignored := match ierr with | some _ => false | none => iok
        let r := match ierr with
          | some m => { r with errors := r.errors ++ [e.resultErr "ignore" m] }
          | none => r
        if ignored then { r with ignored := r.ignored ++ [candidate] }
        else { r with mismatched := r.mismatched ++ [candidate] }

/-- Outcome of the concurrent `select` for one behavior: its observation
arrived on `doneChan`, or the context deadline fired first (carrying the
context error message, src/scientist.go:108-120). -/
inductive Outcome where
  | completed : Outcome
  | timedOut : String → Outcome
deriving DecidableEq

/-- Go `observationResult` (src/scientist.go:38). -/
structure ObservationResult (V : Type) where
  name : String
  obs : Observation V
  err : Option String
deriving DecidableEq

/-- What one behavior's goroutine sends on `resultChan`
(src/scientist.go:93-121): on completion, its observation; on timeout, an
observation holding only the name (zero value, nil error) plus the
context's error. -/
def toObservationResult (e : Experiment V)
    (entry : (String × Behavior V) × Outcome) : ObservationResult V :=
  match entry.2 with
  | Outcome.completed => ⟨entry.1.1, observe e entry.1.1 (some entry.1.2), none⟩
  | Outcome.timedOut msg => ⟨entry.1.1, { name := entry.1.1 }, some msg⟩

/-- Body of the concurrent receive loop (src/scientist.go:130-144):
append a `timeout` operation error if the result carries one, then store
the observation as the control or as the next candidate. -/
def collectStep (e : Experiment V) (nm : String) (r : Result V)
    (res : ObservationResult V) : Result V :=
  let r := match res.err with
    | some m => { r with errors := r.errors ++ [e.resultErr "timeout" m] }
    | none => r
  if res.name = nm then { r with control := some res.obs }
  else { r with candidates := r.candidates ++ [res.obs] }

/-- Concurrent branch of Go `Run` (src/scientist.go:87-151): collect every
behavior's result in completion order, then classify each collected
candidate against the control.  When no result carried the control's name
the Go code dereferences a nil `r.Control`; that (unreachable when the
control name is registered) case skips classification here. -/
def runConcurrentFrom (e : Experiment V) (nm : String)
    (sched : List ((String × Behavior V) × Outcome)) (r0 : Result V) : Result V :=
  let r := (sched.map (toObservationResult e)).foldl (collectStep e nm) r0
  match r.control with
  | some control =>
    r.candidates.foldl (fun acc c => processObservation e acc control c) r
  | none => r

/-- Body of the sequential loop (src/scientist.go:77-86): skip the control
entry, observe the candidate, record it and classify it immediately. -/
def seqStep (e : Experiment V) (nm : String) (control : Observation V)
    (r : Result V) (p : String × Behavior V) : Result V :=
  if p.1 = nm then r
  else
    let c := observe e p.1 (some p.2)
    processObservation e { r with candidates := r.candidates ++ [c] } control c

/-- Sequential branch of Go `Run` (src/scientist.go:72-86). -/
def runSequentialFrom (e : Experiment V) (nm : String)
    (order : List (String × Behavior V)) (r0 : Result V) : Result V :=
  let control := observe e nm (lookupB e.behaviors nm)
  order.foldl (seqStep e nm control) { r0 with control := some control }

/-- The `before_run` operation errors Go `Run` starts with
(src/scientist.go:61-63). -/
def beforeErrs (e : Experiment V) : List ResultError :=
  match e.beforeRunErr with
  | some m => [e.resultErr "before_run" m]
  | none => []

/-- Go `Run` (src/scientist.go:59) up to, and excluding, the publish step:
exactly the `Result` value handed to the publish sink. -/
def runPre (e : Experiment V) (nm : String)
    (order : List (String × Behavior V))
    (sched : List ((String × Behavior V) × Outcome)) : Result V :=
  let r0 : Result V := { errors := beforeErrs e }
  if e.runConcurrently = false then runSequentialFrom e nm order r0
  else runConcurrentFrom e nm sched r0

/-- Publish step of Go `Run` (src/scientist.go:153-155): the sink receives
the result by value; its error, if any, is appended afterwards. -/
def publishStep (e : Experiment V) (r : Result V) : Result V :=
  match e.publisher r with
  | some m => { r with errors := r.errors ++ [e.resultErr "publish" m] }
  | none => r

/-- Go `Run` (src/scientist.go:59-162).  The `errorReporter` call is a
side effect on the already-final `r.Errors` and is not modelled. -/
def run (e : Experiment V) (nm : String)
    (order : List (String × Behavior V))
    (sched : List ((String × Behavior V) × Outcome)) : Result V :=
  publishStep e (runPre e nm order sched)


/-! ### Derived per-candidate classification data

These definitions are provably (see `processObservation_eq` below) the
per-candidate verdicts and error lists that `processObservation` acts on;
they let the folded loops of `Run` be described candidate by candidate. -/

/-- The `ok` flag after src/scientist.go:178-181: the comparator verdict,
forced to `false` when `matching` returned an error. -/
def matchVerdict (e : Experiment V) (c x : Observation V) : Bool :=
  match matching e c x with
  | (ok, none) => ok
  | (_, some _) => false

/-- The `ignored` flag after src/scientist.go:188-191. -/
def ignoreVerdict (e : Experiment V) (c x : Observation V) : Bool :=
  match ignoring e c x with
  | (ok, none) => ok
  | (_, some _) => false

/-- Whether `processObservation` appends the candidate to `Ignored`. -/
def classifiedIgnored (e : Experiment V) (c x : Observation V) : Bool :=
  !matchVerdict e c x && ignoreVerdict e c x

/-- Whether `processObservation` appends the candidate to `Mismatched`. -/
def classifiedMismatched (e : Experiment V) (c x : Observation V) : Bool :=
  !matchVerdict e c x && !ignoreVerdict e c x

/-- The operation errors `processObservation` appends for one candidate:
a `compare` error when the comparator errs, then an `ignore` error when
the ignore predicates err (the latter only evaluated on a failed match). -/
def procErrors (e : Experiment V) (c x : Observation V) : List ResultError :=
  (match (matching e c x).2 with
    | some m => [e.resultErr "compare" m]
    | none => []) ++
  (if matchVerdict e c x then []
   else match (ignoring e c x).2 with
    | some m => [e.resultErr "ignore" m]
    | none => [])

/-- Operation errors accumulated by classifying the candidates `cs`
against the control `c`, in order. -/
def collectErrors (e : Experiment V) (c : Observation V) :
    List (Observation V) → List ResultError
  | [] => []
  | x :: rest => procErrors e c x ++ collectErrors e c rest

/-- The control observation after the concurrent receive loop: the last
received result carrying the control's name wins (src/scientist.go:135-138). -/
def lastControl (nm : String) (rs : List (ObservationResult V))
    (acc : Option (Observation V)) : Option (Observation V) :=
  match rs with
  | [] => acc
  | res :: rest => lastControl nm rest (if res.name = nm then some res.obs else acc)

/-- The candidate observations the concurrent receive loop appends, in
arrival order (src/scientist.go:141-143). -/
def collectCandidates (nm : String) : List (ObservationResult V) → List (Observation V)
  | [] => []
  | res :: rest =>
    if res.name = nm then collectCandidates nm rest
    else res.obs :: collectCandidates nm rest

/-- The `timeout` operation errors the concurrent receive loop appends
(src/scientist.go:131-133). -/
def collectTimeouts (e : Experiment V) : List (ObservationResult V) → List ResultError
  | [] => []
  | res :: rest =>
    (match res.err with
      | some m => [e.resultErr "timeout" m]
      | none => []) ++ collectTimeouts e rest

/-- The candidate observations the sequential loop produces from its map
iteration sequence, in iteration order (src/scientist.go:77-84). -/
def seqObserveAll (e : Experiment V) (nm : String) :
    List (String × Behavior V) → List (Observation V)
  | [] => []
  | p :: rest =>
    if p.1 = nm then seqObserveAll e nm rest
    else observe e p.1 (some p.2) :: seqObserveAll e nm rest

/-! ### Concrete experiments (used by witnesses and counterexamples) -/

/-- Equality comparator over natural-valued observations. -/
def cmpEq : Option Nat → Option Nat → Bool × Option String :=
  fun c d => (decide (c = d), none)

/-- A behavior returning the given number and no error. -/
def bNat (v : Nat) : Behavior Nat := fun _ => (some v, none)

/-- The freshly initialised result record. -/
def emptyResult : Result Nat := {}

/-- An ignore predicate declining the pair. -/
def ignFalse : Option Nat → Option Nat → Bool × Option String := fun _ _ => (false, none)

/-- An ignore predicate accepting the pair. -/
def ignTrue : Option Nat → Option Nat → Bool × Option String := fun _ _ => (true, none)

/-- An ignore predicate failing with an error. -/
def ignErr : Option Nat → Option Nat → Bool × Option String := fun _ _ => (false, some "late")

/-- Sequential experiment whose candidate matches the control. -/
def eSeqMatch : Experiment Nat where
  name := "exp"
  behaviors := [("control", bNat 1), ("candidate", bNat 1)]
  comparator := cmpEq
  ignores := []
  runConcurrently := false
  timeout := none
  beforeRunErr := none
  publisher := fun _ => none

/-- Sequential experiment whose candidate mismatches the control; differs
from `eSeqMatch` only in what the candidate behavior returns. -/
def eSeqMismatch : Experiment Nat :=
  { eSeqMatch with behaviors := [("control", bNat 1), ("candidate", bNat 2)] }

/-- Variant whose `beforeRun` and publish sink both fail. -/
def ePub : Experiment Nat :=
  { eSeqMismatch with beforeRunErr := some "boom", publisher := fun _ => some "pub fail" }

/-- Variant with a declining, an accepting and an erroring ignore predicate. -/
def eIgn : Experiment Nat := { eSeqMismatch with ignores := [ignFalse, ignTrue, ignErr] }

/-- Variant whose comparator and sole ignore predicate both error. -/
def eCmpErr : Experiment Nat :=
  { eSeqMismatch with
    comparator := fun _ _ => (true, some "cmp fail")
    ignores := [fun _ _ => (false, some "ign fail")] }

/-- Concurrent experiment with two candidates registered as a, then b. -/
def eConc3 : Experiment Nat where
  name := "exp"
  behaviors := [("control", bNat 1), ("a", bNat 2), ("b", bNat 3)]
  comparator := cmpEq
  ignores := []
  runConcurrently := true
  timeout := none
  beforeRunErr := none
  publisher := fun _ => none

/-- A completion order for `eConc3` reversing the registration order. -/
def sched3 : List ((String × Behavior Nat) × Outcome) :=
  [(("b", bNat 3), Outcome.completed),
   (("a", bNat 2), Outcome.completed),
   (("control", bNat 1), Outcome.completed)]

/-- Concurrent experiment with a 500 time-unit timeout. -/
def eConcT : Experiment Nat where
  name := "long-running"
  behaviors := [("control", bNat 1), ("candidate", bNat 1)]
  comparator := cmpEq
  ignores := []
  runConcurrently := true
  timeout := some 500
  beforeRunErr := none
  publisher := fun _ => none

/-- A schedule for `eConcT` in which the control completes and the
candidate hits the deadline. -/
def schedT : List ((String × Behavior Nat) × Outcome) :=
  [(("control", bNat 1), Outcome.completed),
   (("candidate", bNat 1), Outcome.timedOut "context deadline exceeded")]

/-! ### Shape lemmas for the run loops -/

theorem processObservation_eq (e : Experiment V) (r : Result V) (c x : Observation V) :
    processObservation e r c x =
      { r with
        errors := r.errors ++ procErrors e c x,
        ignored := r.ignored ++ (if classifiedIgnored e c x then [x] else []),
        mismatched := r.mismatched ++ (if classifiedMismatched e c x then [x] else []) } := by
  unfold processObservation procErrors classifiedIgnored classifiedMismatched
    matchVerdict ignoreVerdict
  rcases hm : matching e c x with ⟨mok, merr⟩
  rcases hi : ignoring e c x with ⟨iok, ierr⟩
  cases merr <;> cases mok <;> cases ierr <;> cases iok <;> simp [hm, hi]

theorem classify_fold (e : Experiment V) (c : Observation V) :
    ∀ (cs : List (Observation V)) (r : Result V),
      cs.foldl (fun acc x => processObservation e acc c x) r =
        { r with
          ignored := r.ignored ++ cs.filter (classifiedIgnored e c),
          mismatched := r.mismatched ++ cs.filter (classifiedMismatched e c),
          errors := r.errors ++ collectErrors e c cs } := by
  intro cs
  induction cs with
  | nil => intro r; simp [collectErrors]
  | cons x rest ih =>
    intro r
    rw [List.foldl_cons, processObservation_eq, ih]
    simp only [collectErrors, List.filter_cons]
    cases hig : classifiedIgnored e c x <;> cases hmm : classifiedMismatched e c x <;>
      simp [hig, hmm, List.append_assoc]

theorem collect_fold (e : Experiment V) (nm : String) :
    ∀ (rs : List (ObservationResult V)) (r : Result V),
      rs.foldl (collectStep e nm) r =
        { r with
          control := lastControl nm rs r.control,
          candidates := r.candidates ++ collectCandidates nm rs,
          errors := r.errors ++ collectTimeouts e rs } := by
  intro rs
  induction rs with
  | nil => intro r; simp [lastControl, collectCandidates, collectTimeouts]
  | cons res rest ih =>
    intro r
    simp only [List.foldl_cons, collectStep, lastControl, collectCandidates, collectTimeouts]
    cases herr : res.err <;> by_cases hnm : res.name = nm <;>
      simp [hnm, ih, List.append_assoc]

theorem seq_fold (e : Experiment V) (nm : String) (control : Observation V) :
    ∀ (entries : List (String × Behavior V)) (r : Result V),
      entries.foldl (seqStep e nm control) r =
        { r with
          candidates := r.candidates ++ seqObserveAll e nm entries,
          ignored := r.ignored ++ (seqObserveAll e nm entries).filter (classifiedIgnored e control),
          mismatched :=
            r.mismatched ++ (seqObserveAll e nm entries).filter (classifiedMismatched e control),
          errors := r.errors ++ collectErrors e control (seqObserveAll e nm entries) } := by
  intro entries
  induction entries with
  | nil => intro r; simp [seqObserveAll, collectErrors]
  | cons p rest ih =>
    intro r
    by_cases hnm : p.1 = nm
    · rw [List.foldl_cons]
      simp only [seqStep, if_pos hnm]
      rw [ih]
      simp [seqObserveAll, hnm]
    · rw [List.foldl_cons]
      simp only [seqStep, if_neg hnm]
      rw [processObservation_eq, ih]
      simp only [seqObserveAll, if_neg hnm, collectErrors, List.filter_cons]
      cases hig : classifiedIgnored e control (observe e p.1 (some p.2)) <;>
        cases hmm : classifiedMismatched e control (observe e p.1 (some p.2)) <;>
        simp [hig, hmm, List.append_assoc]

theorem runSequentialFrom_eq (e : Experiment V) (nm : String)
    (order : List (String × Behavior V)) (es : List ResultError) :
    runSequentialFrom e nm order { errors := es } =
      { control := some (observe e nm (lookupB e.behaviors nm)),
        candidates := seqObserveAll e nm order,
        ignored := (seqObserveAll e nm order).filter
          (classifiedIgnored e (observe e nm (lookupB e.behaviors nm))),
        mismatched := (seqObserveAll e nm order).filter
          (classifiedMismatched e (observe e nm (lookupB e.behaviors nm))),
        errors := es ++ collectErrors e (observe e nm (lookupB e.behaviors nm))
          (seqObserveAll e nm order) } := by
  unfold runSequentialFrom
  rw [seq_fold]
  simp

theorem runConcurrentFrom_eq (e : Experiment V) (nm : String)
    (sched : List ((String × Behavior V) × Outcome)) (es : List ResultError) :
    runConcurrentFrom e nm sched { errors := es } =
      match lastControl nm (sched.map (toObservationResult e)) none with
      | some c =>
        { control := some c,
          candidates := collectCandidates nm (sched.map (toObservationResult e)),
          ignored := (collectCandidates nm (sched.map (toObservationResult e))).filter
            (classifiedIgnored e c),
          mismatched := (collectCandidates nm (sched.map (toObservationResult e))).filter
            (classifiedMismatched e c),
          errors := (es ++ collectTimeouts e (sched.map (toObservationResult e))) ++
            collectErrors e c (collectCandidates nm (sched.map (toObservationResult e))) }
      | none =>
        { control := none,
          candidates := collectCandidates nm (sched.map (toObservationResult e)),
          errors := es ++ collectTimeouts e (sched.map (toObservationResult e)) } := by
  unfold runConcurrentFrom
  rw [collect_fold]
  cases hlc : lastControl nm (sched.map (toObservationResult e)) none <;>
    simp [hlc, classify_fold]

/-! ### Projections and mode shapes of `run` -/

theorem publishStep_control (e : Experiment V) (r : Result V) :
    (publishStep e r).control = r.control := by
  unfold publishStep
  cases e.publisher r <;> rfl

theorem publishStep_candidates (e : Experiment V) (r : Result V) :
    (publishStep e r).candidates = r.candidates := by
  unfold publishStep
  cases e.publisher r <;> rfl

theorem publishStep_ignored (e : Experiment V) (r : Result V) :
    (publishStep e r).ignored = r.ignored := by
  unfold publishStep
  cases e.publisher r <;> rfl

theorem publishStep_mismatched (e : Experiment V) (r : Result V) :
    (publishStep e r).mismatched = r.mismatched := by
  unfold publishStep
  cases e.publisher r <;> rfl

theorem runPre_seq_eq (e : Experiment V) (nm : String)
    (order : List (String × Behavior V)) (sched : List ((String × Behavior V) × Outcome))
    (h : e.runConcurrently = false) :
    runPre e nm order sched = runSequentialFrom e nm order { errors := beforeErrs e } := by
  unfold runPre
  rw [h]
  rfl

theorem runPre_conc_eq (e : Experiment V) (nm : String)
    (order : List (String × Behavior V)) (sched : List ((String × Behavior V) × Outcome))
    (h : e.runConcurrently = true) :
    runPre e nm order sched = runConcurrentFrom e nm sched { errors := beforeErrs e } := by
  unfold runPre
  rw [h]
  rfl

/-! ### Small lemmas about the derived data -/

theorem toObservationResult_name (e : Experiment V) (entry : (String × Behavior V) × Outcome) :
    (toObservationResult e entry).name = entry.1.1 := by
  cases entry with
  | mk p out => cases out <;> rfl

theorem lastControl_append (nm : String) (rs1 rs2 : List (ObservationResult V))
    (acc : Option (Observation V)) :
    lastControl nm (rs1 ++ rs2) acc = lastControl nm rs2 (lastControl nm rs1 acc) := by
  induction rs1 generalizing acc with
  | nil => rfl
  | cons res rest ih => simp [lastControl, ih]

theorem lastControl_of_absent (nm : String) (rs : List (ObservationResult V))
    (acc : Option (Observation V)) (h : ∀ res ∈ rs, res.name ≠ nm) :
    lastControl nm rs acc = acc := by
  induction rs generalizing acc with
  | nil => rfl
  | cons res rest ih =>
    have hres : res.name ≠ nm := h res (List.mem_cons_self res rest)
    simp only [lastControl, if_neg hres]
    exact ih acc fun x hx => h x (List.mem_cons_of_mem res hx)

theorem lastControl_of_split (e : Experiment V) (nm : String)
    (u v : List ((String × Behavior V) × Outcome)) (f : Behavior V) (out : Outcome)
    (hv : ∀ p ∈ v, p.1.1 ≠ nm) :
    lastControl nm ((u ++ ((nm, f), out) :: v).map (toObservationResult e)) none =
      some (toObservationResult e ((nm, f), out)).obs := by
  rw [List.map_append, lastControl_append, List.map_cons]
  have hname : (toObservationResult e ((nm, f), out)).name = nm := toObservationResult_name e _
  simp only [lastControl, if_pos hname]
  exact lastControl_of_absent nm _ _ fun res hres => by
    rcases List.mem_map.mp hres with ⟨p, hp, hpe⟩
    rw [← hpe, toObservationResult_name]
    exact hv p hp

theorem mem_collectCandidates (nm : String) (rs : List (ObservationResult V))
    (res : ObservationResult V) (hmem : res ∈ rs) (hne : res.name ≠ nm) :
    res.obs ∈ collectCandidates nm rs := by
  induction rs with
  | nil => cases hmem
  | cons hd tl ih =>
    rcases List.mem_cons.mp hmem with heq | htl
    · subst heq
      simp [collectCandidates, if_neg hne]
    · by_cases hhd : hd.name = nm
      · simpa [collectCandidates, if_pos hhd] using ih htl
      · simp only [collectCandidates, if_neg hhd]
        exact List.mem_cons_of_mem _ (ih htl)

theorem mem_collectTimeouts (e : Experiment V) (rs : List (ObservationResult V))
    (res : ObservationResult V) (m : String) (hmem : res ∈ rs) (herr : res.err = some m) :
    e.resultErr "timeout" m ∈ collectTimeouts e rs := by
  induction rs with
  | nil => cases hmem
  | cons hd tl ih =>
    rcases List.mem_cons.mp hmem with heq | htl
    · subst heq
      simp [collectTimeouts, herr]
    · simp only [collectTimeouts, List.mem_append]
      exact Or.inr (ih htl)

theorem matchVerdict_true (e : Experiment V) (c x : Observation V)
    (h : matchVerdict e c x = true) : matching e c x = (true, none) := by
  unfold matchVerdict at h
  rcases hm : matching e c x with ⟨ok, err⟩
  rw [hm] at h
  cases err with
  | none => cases ok with
    | true => rfl
    | false => cases h
  | some m => cases h

theorem classified_neither (e : Experiment V) (c x : Observation V)
    (hig : classifiedIgnored e c x = false) (hmm : classifiedMismatched e c x = false) :
    matching e c x = (true, none) := by
  apply matchVerdict_true
  unfold classifiedIgnored at hig
  unfold classifiedMismatched at hmm
  cases hv : matchVerdict e c x with
  | true => rfl
  | false =>
    rw [hv] at hig hmm
    cases hi : ignoreVerdict e c x with
    | true => rw [hi] at hig; cases hig
    | false => rw [hi] at hmm; cases hmm

theorem classified_not_both (e : Experiment V) (c x : Observation V) :
    ¬(classifiedIgnored e c x = true ∧ classifiedMismatched e c x = true) := by
  rintro ⟨hig, hmm⟩
  unfold classifiedIgnored at hig
  unfold classifiedMismatched at hmm
  cases hv : matchVerdict e c x <;> rw [hv] at hig hmm <;>
    cases hi : ignoreVerdict e c x <;> rw [hi] at hig hmm <;> simp_all

theorem ignoringAux_prefix (cv dv : Option V)
    (xs l : List (Option V → Option V → Bool × Option String))
    (hxs : ∀ i ∈ xs, i cv dv = (false, none)) :
    ignoringAux cv dv (xs ++ l) = ignoringAux cv dv l := by
  induction xs with
  | nil => rfl
  | cons i rest ih =>
    have hi : i cv dv = (false, none) := hxs i (List.mem_cons_self i rest)
    simp only [List.cons_append, ignoringAux, hi]
    exact ih fun j hj => hxs j (List.mem_cons_of_mem i hj)

/-! ### Operation tags of accumulated errors -/

theorem procErrors_ops (e : Experiment V) (c x : Observation V) :
    ∀ er ∈ procErrors e c x, er.operation = "compare" ∨ er.operation = "ignore" := by
  intro er her
  unfold procErrors at her
  rcases List.mem_append.mp her with h | h
  · left
    rcases hm : (matching e c x).2 with _ | m <;> rw [hm] at h
    · cases h
    · rw [List.mem_singleton] at h
      rw [h]
      rfl
  · right
    rcases hi : (ignoring e c x).2 with _ | m <;> rw [hi] at h <;>
      cases hv : matchVerdict e c x <;> rw [hv] at h <;> simp at h <;> rw [h] <;> rfl

theorem collectErrors_ops (e : Experiment V) (c : Observation V) (cs : List (Observation V)) :
    ∀ er ∈ collectErrors e c cs, er.operation = "compare" ∨ er.operation = "ignore" := by
  induction cs with
  | nil => intro er her; cases her
  | cons x rest ih =>
    intro er her
    rcases List.mem_append.mp her with h | h
    · exact procErrors_ops e c x er h
    · exact ih er h

theorem collectTimeouts_ops (e : Experiment V) (rs : List (ObservationResult V)) :
    ∀ er ∈ collectTimeouts e rs, er.operation = "timeout" := by
  induction rs with
  | nil => intro er her; cases her
  | cons res rest ih =>
    intro er her
    rcases List.mem_append.mp her with h | h
    · rcases herr : res.err with _ | m <;> rw [herr] at h
      · cases h
      · rw [List.mem_singleton] at h
        rw [h]
        rfl
    · exact ih er h

theorem beforeErrs_ops (e : Experiment V) :
    ∀ er ∈ beforeErrs e, er.operation = "before_run" := by
  intro er her
  unfold beforeErrs at her
  rcases h : e.beforeRunErr with _ | m <;> rw [h] at her
  · cases her
  · rw [List.mem_singleton] at her
    rw [her]
    rfl

theorem runPre_ops (e : Experiment V) (nm : String)
    (order : List (String × Behavior V)) (sched : List ((String × Behavior V) × Outcome)) :
    ∀ er ∈ (runPre e nm order sched).errors,
      er.operation = "before_run" ∨ er.operation = "timeout" ∨
        er.operation = "compare" ∨ er.operation = "ignore" := by
  intro er her
  cases hrc : e.runConcurrently with
  | false =>
    rw [runPre_seq_eq e nm order sched hrc, runSequentialFrom_eq] at her
    simp only at her
    rcases List.mem_append.mp her with h | h
    · exact Or.inl (beforeErrs_ops e er h)
    · rcases collectErrors_ops e _ _ er h with h2 | h2
      · exact Or.inr (Or.inr (Or.inl h2))
      · exact Or.inr (Or.inr (Or.inr h2))
  | true =>
    rw [runPre_conc_eq e nm order sched hrc, runConcurrentFrom_eq] at her
    rcases hlc : lastControl nm (sched.map (toObservationResult e)) none with _ | c <;>
      rw [hlc] at her <;> simp only at her
    · rcases List.mem_append.mp her with h | h
      · exact Or.inl (beforeErrs_ops e er h)
      · exact Or.inr (Or.inl (collectTimeouts_ops e _ er h))
    · rcases List.mem_append.mp her with h | h
      · rcases List.mem_append.mp h with h2 | h2
        · exact Or.inl (beforeErrs_ops e er h2)
        · exact Or.inr (Or.inl (collectTimeouts_ops e _ er h2))
      · rcases collectErrors_ops e _ _ er h with h2 | h2
        · exact Or.inr (Or.inr (Or.inl h2))
        · exact Or.inr (Or.inr (Or.inr h2))

/-! ### Lengths of the candidate sequences -/

theorem seqObserveAll_length (e : Experiment V) (nm : String)
    (l : List (String × Behavior V)) :
    (seqObserveAll e nm l).length = (l.filter (fun p => !(p.1 == nm))).length := by
  induction l with
  | nil => rfl
  | cons p rest ih =>
    by_cases h : p.1 = nm <;>
      simp [seqObserveAll, List.filter_cons, h, ih]

theorem collectCandidates_length (e : Experiment V) (nm : String)
    (sched : List ((String × Behavior V) × Outcome)) :
    (collectCandidates nm (sched.map (toObservationResult e))).length =
      ((sched.map Prod.fst).filter (fun p => !(p.1 == nm))).length := by
  induction sched with
  | nil => rfl
  | cons entry rest ih =>
    by_cases h : entry.1.1 = nm <;>
      simp [collectCandidates, List.filter_cons, toObservationResult_name, h, ih]

theorem run_control (e : Experiment V) (nm : String) (order : List (String × Behavior V))
    (sched : List ((String × Behavior V) × Outcome)) :
    (run e nm order sched).control = (runPre e nm order sched).control :=
  publishStep_control e _

theorem run_candidates (e : Experiment V) (nm : String) (order : List (String × Behavior V))
    (sched : List ((String × Behavior V) × Outcome)) :
    (run e nm order sched).candidates = (runPre e nm order sched).candidates :=
  publishStep_candidates e _

theorem run_ignored (e : Experiment V) (nm : String) (order : List (String × Behavior V))
    (sched : List ((String × Behavior V) × Outcome)) :
    (run e nm order sched).ignored = (runPre e nm order sched).ignored :=
  publishStep_ignored e _

theorem run_mismatched (e : Experiment V) (nm : String) (order : List (String × Behavior V))
    (sched : List ((String × Behavior V) × Outcome)) :
    (run e nm order sched).mismatched = (runPre e nm order sched).mismatched :=
  publishStep_mismatched e _

theorem run_errors_of_pre (e : Experiment V) (nm : String) (order : List (String × Behavior V))
    (sched : List ((String × Behavior V) × Outcome)) (er : ResultError)
    (h : er ∈ (runPre e nm order sched).errors) : er ∈ (run e nm order sched).errors := by
  show er ∈ (publishStep e (runPre e nm order sched)).errors
  unfold publishStep
  cases e.publisher (runPre e nm order sched) with
  | none => exact h
  | some m => exact List.mem_append_left _ h

theorem runPre_candidates (e : Experiment V) (nm : String) (order : List (String × Behavior V))
    (sched : List ((String × Behavior V) × Outcome)) :
    (runPre e nm order sched).candidates =
      if e.runConcurrently = false then seqObserveAll e nm order
      else collectCandidates nm (sched.map (toObservationResult e)) := by
  cases hrc : e.runConcurrently with
  | false =>
    rw [runPre_seq_eq e nm order sched hrc, runSequentialFrom_eq, if_pos rfl]
  | true =>
    rw [runPre_conc_eq e nm order sched hrc, runConcurrentFrom_eq, if_neg (by decide)]
    cases hlc : lastControl nm (sched.map (toObservationResult e)) none <;> rfl

theorem inv_filters (e : Experiment V) (c0 : Observation V) (cs : List (Observation V)) :
    List.Disjoint (cs.filter (classifiedIgnored e c0)) (cs.filter (classifiedMismatched e c0)) ∧
    (∀ o ∈ cs.filter (classifiedIgnored e c0), o ∈ cs) ∧
    (∀ o ∈ cs.filter (classifiedMismatched e c0), o ∈ cs) ∧
    (∀ o ∈ cs, o ∉ cs.filter (classifiedIgnored e c0) →
      o ∉ cs.filter (classifiedMismatched e c0) → matching e c0 o = (true, none)) := by
  refine ⟨?_, ?_, ?_, ?_⟩
  · intro a h1 h2
    exact classified_not_both e c0 a
      ⟨(List.mem_filter.mp h1).2, (List.mem_filter.mp h2).2⟩
  · intro o ho
    exact (List.mem_filter.mp ho).1
  · intro o ho
    exact (List.mem_filter.mp ho).1
  · intro o ho h1 h2
    have hp : classifiedIgnored e c0 o = false := by
      by_contra hne
      exact h1 (List.mem_filter.mpr ⟨ho, by simpa using hne⟩)
    have hq : classifiedMismatched e c0 o = false := by
      by_contra hne
      exact h2 (List.mem_filter.mpr ⟨ho, by simpa using hne⟩)
    exact classified_neither e c0 o hp hq

/-! ### The claims -/

/-- C2: classifying a (control, candidate) pair: with no errors on either
side the verdict is exactly the comparator's answer over the two values;
with errors on both sides the pair matches iff the two error texts are
equal and the comparator is never consulted (the verdict is the same for
every comparator); with an error on exactly one side the pair never
matches. -/
theorem c2_matching_classification (e : Experiment V) (c d : Observation V) :
    (c.err = none → d.err = none → matching e c d = e.comparator c.value d.value) ∧
    (∀ cm dm, c.err = some cm → d.err = some dm →
      matching e c d = (decide (cm = dm), none) ∧
      ∀ cmp, matching { e with comparator := cmp } c d = (decide (cm = dm), none)) ∧
    (∀ dm, c.err = none → d.err = some dm → matching e c d = (false, none)) ∧
    (∀ cm, c.err = some cm → d.err = none → matching e c d = (false, none)) := by
  refine ⟨?_, ?_, ?_, ?_⟩
  · intro h1 h2
    unfold matching
    rw [h1, h2]
  · intro cm dm h1 h2
    constructor
    · unfold matching
      rw [h1, h2]
    · intro cmp
      unfold matching
      rw [h1, h2]
  · intro dm h1 h2
    unfold matching
    rw [h1, h2]
  · intro cm h1 h2
    unfold matching
    rw [h1, h2]

theorem c2_witness :
    matching eSeqMatch { name := "control", err := some "x" }
      { name := "candidate", err := some "x" } = (true, none) := by
  have h := (c2_matching_classification eSeqMatch
    { name := "control", err := some "x" } { name := "candidate", err := some "x" }).2.1
    "x" "x" rfl rfl
  exact h.1

/-- C5: for a candidate that failed matching cleanly, ignore predicates
run in registration order; with every earlier predicate declining, a
predicate answering true marks the candidate ignored whatever predicates
follow (short-circuit), and a predicate answering an error stops ignore
evaluation, records an `ignore` operation error and sends the candidate
to Mismatched, not Ignored. -/
theorem c5_ignore_short_circuit (e : Experiment V) (r : Result V)
    (control cand : Observation V)
    (xs ys : List (Option V → Option V → Bool × Option String))
    (p : Option V → Option V → Bool × Option String)
    (hig : e.ignores = xs ++ p :: ys)
    (hxs : ∀ i ∈ xs, i control.value cand.value = (false, none))
    (hm : matching e control cand = (false, none)) :
    (p control.value cand.value = (true, none) →
      processObservation e r control cand = { r with ignored := r.ignored ++ [cand] }) ∧
    (∀ b m, p control.value cand.value = (b, some m) →
      processObservation e r control cand =
        { r with errors := r.errors ++ [e.resultErr "ignore" m],
                 mismatched := r.mismatched ++ [cand] }) := by
  have hi : ignoring e control cand = ignoringAux control.value cand.value (p :: ys) := by
    unfold ignoring
    rw [hig]
    exact ignoringAux_prefix _ _ xs _ hxs
  have hmv : matchVerdict e control cand = false := by
    unfold matchVerdict
    rw [hm]
  constructor
  · intro hp
    have hi2 : ignoring e control cand = (true, none) := by
      rw [hi]
      simp [ignoringAux, hp]
    have hiv : ignoreVerdict e control cand = true := by
      unfold ignoreVerdict
      rw [hi2]
    rw [processObservation_eq]
    simp [procErrors, classifiedIgnored, classifiedMismatched, hmv, hiv, hm, hi2]
  · intro b m hp
    have hi2 : ignoring e control cand = (false, some m) := by
      rw [hi]
      simp [ignoringAux, hp]
    have hiv : ignoreVerdict e control cand = false := by
      unfold ignoreVerdict
      rw [hi2]
    rw [processObservation_eq]
    simp [procErrors, classifiedIgnored, classifiedMismatched, hmv, hiv, hm, hi2]

theorem c5_witness :
    processObservation eIgn emptyResult { name := "control", value := some 1 }
      { name := "candidate", value := some 2 } =
      { emptyResult with ignored := [{ name := "candidate", value := some 2 }] } := by
  have h := c5_ignore_short_circuit eIgn emptyResult
    { name := "control", value := some 1 } { name := "candidate", value := some 2 }
    [ignFalse] [ignErr] ignTrue rfl
    (by intro i hi
        rw [List.mem_singleton] at hi
        subst hi
        rfl)
    rfl
  exact h.1 rfl

/-- C6: when the comparator errors the candidate counts as not matching
and a `compare` operation error is recorded; when an ignore predicate then
also errors, both the `compare` and the `ignore` operation errors end up
in the result's error list (accumulation, no short-circuit) and the
candidate is appended to Mismatched. -/
theorem c6_compound_errors (e : Experiment V) (r : Result V) (control cand : Observation V)
    (b1 b2 : Bool) (m1 m2 : String)
    (hm : matching e control cand = (b1, some m1))
    (hi : ignoring e control cand = (b2, some m2)) :
    processObservation e r control cand =
      { r with errors := r.errors ++ [e.resultErr "compare" m1, e.resultErr "ignore" m2],
               mismatched := r.mismatched ++ [cand] } := by
  have hmv : matchVerdict e control cand = false := by
    unfold matchVerdict
    rw [hm]
  have hiv : ignoreVerdict e control cand = false := by
    unfold ignoreVerdict
    rw [hi]
  rw [processObservation_eq]
  simp [procErrors, classifiedIgnored, classifiedMismatched, hmv, hiv, hm, hi]

theorem c6_witness :
    processObservation eCmpErr emptyResult { name := "control", value := some 1 }
      { name := "candidate", value := some 2 } =
      { emptyResult with
        errors := [eCmpErr.resultErr "compare" "cmp fail", eCmpErr.resultErr "ignore" "ign fail"],
        mismatched := [{ name := "candidate", value := some 2 }] } :=
  c6_compound_errors eCmpErr emptyResult
    { name := "control", value := some 1 } { name := "candidate", value := some 2 }
    true false "cmp fail" "ign fail" rfl rfl

/-- C7: `observe` always yields a well-formed observation and never
propagates an error: with a behavior present its returned value and error
are captured in the observation's fields, and with a nil behavior whose
name is also absent from the registry the observation carries the
behavior-not-found error. -/
theorem c7_observe_captures (e : Experiment V) (nm : String) (f : Behavior V) :
    (observe e nm (some f)).name = nm ∧
    (observe e nm (some f)).value = (f ()).1 ∧
    (observe e nm (some f)).err = (f ()).2 ∧
    (lookupB e.behaviors nm = none →
      observe e nm none = { name := nm, value := none, err := some (behaviorNotFound e nm) }) := by
  refine ⟨rfl, rfl, rfl, ?_⟩
  intro h
  simp [observe, h]

theorem c7_witness :
    (observe eSeqMatch "control" (some (bNat 1))).value = some 1 ∧
    observe eSeqMatch "nope" none =
      { name := "nope", value := none, err := some (behaviorNotFound eSeqMatch "nope") } :=
  ⟨(c7_observe_captures eSeqMatch "control" (bNat 1)).2.1,
   (c7_observe_captures eSeqMatch "nope" (bNat 1)).2.2.2 rfl⟩

/-- C8: in every run result, Ignored and Mismatched are disjoint, every
element of each is one of the Candidates, and a candidate in neither
matched the control exactly (the comparator answered true with no error). -/
theorem c8_result_invariant (e : Experiment V) (nm : String)
    (order : List (String × Behavior V)) (sched : List ((String × Behavior V) × Outcome)) :
    List.Disjoint (run e nm order sched).ignored (run e nm order sched).mismatched ∧
    (∀ o ∈ (run e nm order sched).ignored, o ∈ (run e nm order sched).candidates) ∧
    (∀ o ∈ (run e nm order sched).mismatched, o ∈ (run e nm order sched).candidates) ∧
    (∀ c, (run e nm order sched).control = some c →
      ∀ o ∈ (run e nm order sched).candidates,
        o ∉ (run e nm order sched).ignored → o ∉ (run e nm order sched).mismatched →
        matching e c o = (true, none)) := by
  rw [run_ignored, run_mismatched, run_candidates, run_control]
  cases hrc : e.runConcurrently with
  | false =>
    rw [runPre_seq_eq e nm order sched hrc, runSequentialFrom_eq]
    have h := inv_filters e (observe e nm (lookupB e.behaviors nm)) (seqObserveAll e nm order)
    refine ⟨h.1, h.2.1, h.2.2.1, ?_⟩
    intro c hc o ho h1 h2
    have hc2 : some (observe e nm (lookupB e.behaviors nm)) = some c := hc
    cases Option.some.inj hc2
    exact h.2.2.2 o ho h1 h2
  | true =>
    rw [runPre_conc_eq e nm order sched hrc, runConcurrentFrom_eq]
    cases hlc : lastControl nm (sched.map (toObservationResult e)) none with
    | none =>
      refine ⟨?_, ?_, ?_, ?_⟩
      · intro a ha hb
        cases ha
      · intro o ho
        cases ho
      · intro o ho
        cases ho
      · intro c hc
        exact Option.noConfusion hc
    | some c0 =>
      have h := inv_filters e c0 (collectCandidates nm (sched.map (toObservationResult e)))
      refine ⟨h.1, h.2.1, h.2.2.1, ?_⟩
      intro c hc o ho h1 h2
      have hc2 : some c0 = some c := hc
      cases Option.some.inj hc2
      exact h.2.2.2 o ho h1 h2

theorem c8_witness :
    matching eSeqMatch { name := "control", value := some 1 }
      { name := "candidate", value := some 1 } = (true, none) :=
  (c8_result_invariant eSeqMatch "control" eSeqMatch.behaviors []).2.2.2
    { name := "control", value := some 1 } rfl
    { name := "candidate", value := some 1 } (by decide) (by decide) (by decide)

/-- C10: the result value handed to the publish sink (which is exactly
`runPre`) never contains a `publish` operation error; the run invokes the
sink once on that value and appends the sink's own error only afterwards,
so it is visible in the returned result but never to the sink itself. -/
theorem c10_publish_isolation (e : Experiment V) (nm : String)
    (order : List (String × Behavior V)) (sched : List ((String × Behavior V) × Outcome)) :
    (∀ er ∈ (runPre e nm order sched).errors, er.operation ≠ "publish") ∧
    run e nm order sched = publishStep e (runPre e nm order sched) ∧
    (∀ m, e.publisher (runPre e nm order sched) = some m →
      (run e nm order sched).errors =
        (runPre e nm order sched).errors ++ [e.resultErr "publish" m]) ∧
    (e.publisher (runPre e nm order sched) = none →
      run e nm order sched = runPre e nm order sched) := by
  refine ⟨?_, rfl, ?_, ?_⟩
  · intro er her
    rcases runPre_ops e nm order sched er her with h | h | h | h <;> rw [h] <;> decide
  · intro m hm
    show (publishStep e (runPre e nm order sched)).errors = _
    unfold publishStep
    rw [hm]
  · intro hm
    show publishStep e (runPre e nm order sched) = _
    unfold publishStep
    rw [hm]

theorem c10_witness :
    (run ePub "control" ePub.behaviors []).errors =
      (runPre ePub "control" ePub.behaviors []).errors ++ [ePub.resultErr "publish" "pub fail"] ∧
    (ePub.resultErr "before_run" "boom").operation ≠ "publish" :=
  ⟨(c10_publish_isolation ePub "control" ePub.behaviors []).2.2.1 "pub fail" rfl,
   (c10_publish_isolation ePub "control" ePub.behaviors []).1 _ (by decide)⟩

/-- C1: the control observation of a run (its value and its error) is
determined solely by the control behavior's own return values: two runs
whose experiments share the experiment name and whose control behavior
returns the same value/error pair produce identical control observations,
whatever the candidate behaviors, comparator, predicates or sinks do; in
concurrent mode the same holds given the control's scheduled outcome is
the same.  In particular no candidate failure reaches the control
observation the caller reads from the returned result. -/
theorem c1_control_independence (e1 e2 : Experiment V) (nm : String)
    (o1 o2 : List (String × Behavior V))
    (s1 s2 : List ((String × Behavior V) × Outcome))
    (hname : e1.name = e2.name) :
    (e1.runConcurrently = false → e2.runConcurrently = false →
      (lookupB e1.behaviors nm).map (fun f => f ()) =
        (lookupB e2.behaviors nm).map (fun f => f ()) →
      (run e1 nm o1 s1).control = (run e2 nm o2 s2).control) ∧
    (∀ (u1 v1 u2 v2 : List ((String × Behavior V) × Outcome)) (f1 f2 : Behavior V)
        (out : Outcome),
      e1.runConcurrently = true → e2.runConcurrently = true →
      s1 = u1 ++ ((nm, f1), out) :: v1 → s2 = u2 ++ ((nm, f2), out) :: v2 →
      (∀ p ∈ v1, p.1.1 ≠ nm) → (∀ p ∈ v2, p.1.1 ≠ nm) →
      f1 () = f2 () →
      (run e1 nm o1 s1).control = (run e2 nm o2 s2).control) := by
  constructor
  · intro h1 h2 hlook
    rw [run_control, run_control, runPre_seq_eq e1 nm o1 s1 h1, runPre_seq_eq e2 nm o2 s2 h2,
      runSequentialFrom_eq, runSequentialFrom_eq]
    show some (observe e1 nm (lookupB e1.behaviors nm)) =
      some (observe e2 nm (lookupB e2.behaviors nm))
    rcases hl1 : lookupB e1.behaviors nm with _ | f1 <;>
      rcases hl2 : lookupB e2.behaviors nm with _ | f2 <;>
      rw [hl1, hl2] at hlook
    · simp [observe, hl1, hl2, behaviorNotFound, hname]
    · exact absurd hlook (by simp)
    · exact absurd hlook (by simp)
    · have hf : f1 () = f2 () := by simpa using hlook
      simp [observe, hf]
  · intro u1 v1 u2 v2 f1 f2 out h1 h2 hs1 hs2 hv1 hv2 hf
    subst hs1
    subst hs2
    rw [run_control, run_control, runPre_conc_eq e1 nm o1 _ h1, runPre_conc_eq e2 nm o2 _ h2,
      runConcurrentFrom_eq, runConcurrentFrom_eq,
      lastControl_of_split e1 nm u1 v1 f1 out hv1, lastControl_of_split e2 nm u2 v2 f2 out hv2]
    cases out with
    | completed =>
      show some (observe e1 nm (some f1)) = some (observe e2 nm (some f2))
      simp [observe, hf]
    | timedOut msg => rfl

theorem c1_witness :
    (run eSeqMismatch "control" eSeqMismatch.behaviors []).control =
      (run eSeqMatch "control" eSeqMatch.behaviors []).control :=
  (c1_control_independence eSeqMismatch eSeqMatch "control"
    eSeqMismatch.behaviors eSeqMatch.behaviors [] [] rfl).1 rfl rfl rfl

/-- C3 as stated is false of the code: with the registration order
control, a, b and the completion order b, a, control, the returned
candidate sequence is b, a — completion order, not the registration
order a, b. -/
theorem c3_counterexample :
    (run eConc3 "control" [] sched3).candidates.map (fun o => o.name) = ["b", "a"] ∧
    (run eConc3 "control" [] sched3).candidates.map (fun o => o.name) ≠ ["a", "b"] := by
  have h : (run eConc3 "control" [] sched3).candidates.map (fun o => o.name) = ["b", "a"] := rfl
  refine ⟨h, ?_⟩
  rw [h]
  decide

/-- C3 amended: the returned candidate sequence holds exactly one
observation per non-control entry of the loop's collection sequence, in
map-iteration order (sequential mode) or completion order (concurrent
mode) — not necessarily registration order — and when that sequence
enumerates the registered behaviors its length equals the number of
registered non-control behaviors. -/
theorem c3_amended_collection_order (e : Experiment V) (nm : String)
    (order : List (String × Behavior V)) (sched : List ((String × Behavior V) × Outcome)) :
    ((run e nm order sched).candidates =
      if e.runConcurrently = false then seqObserveAll e nm order
      else collectCandidates nm (sched.map (toObservationResult e))) ∧
    (e.runConcurrently = false → order.Perm e.behaviors →
      (run e nm order sched).candidates.length =
        (e.behaviors.filter (fun p => !(p.1 == nm))).length) ∧
    (e.runConcurrently = true → (sched.map Prod.fst).Perm e.behaviors →
      (run e nm order sched).candidates.length =
        (e.behaviors.filter (fun p => !(p.1 == nm))).length) := by
  refine ⟨by rw [run_candidates, runPre_candidates], ?_, ?_⟩
  · intro hrc hperm
    rw [run_candidates, runPre_candidates, if_pos hrc, seqObserveAll_length]
    exact (hperm.filter (fun p => !(p.1 == nm))).length_eq
  · intro hrc hperm
    rw [run_candidates, runPre_candidates, if_neg (by simp [hrc]), collectCandidates_length]
    exact (hperm.filter (fun p => !(p.1 == nm))).length_eq

theorem c3_amended_witness :
    (run eConc3 "control" [] sched3).candidates.length =
      (eConc3.behaviors.filter (fun p => !(p.1 == "control"))).length :=
  (c3_amended_collection_order eConc3 "control" [] sched3).2.2 rfl
    (by have h : sched3.map Prod.fst = eConc3.behaviors.reverse := rfl
        rw [h]
        exact List.reverse_perm eConc3.behaviors)

/-- C4 as stated is false of the code: the timed-out candidate's slot in
the result holds an observation with an empty value and a NIL error (the
timeout error is not stored in the observation), even though a `timeout`
operation error is appended to the result's error list. -/
theorem c4_counterexample :
    (run eConcT "control" [] schedT).candidates = [{ name := "candidate" }] ∧
    ({ name := "candidate" } : Observation Nat).err = none ∧
    ({ name := "candidate" } : Observation Nat).value = none ∧
    (run eConcT "control" [] schedT).errors.map (fun er => er.operation) = ["timeout"] :=
  ⟨rfl, rfl, rfl, rfl⟩

/-- C4 amended: in concurrent mode, a behavior whose outcome is a timeout
gets a slot holding an observation with an empty value and a nil error
(the timeout is not recorded in the observation itself), a `timeout`
operation error is appended to the result's errors, and the control's own
observation is still the one returned when the control completed in
time. -/
theorem c4_amended_timeout (e : Experiment V) (nm n : String) (f : Behavior V) (msg : String)
    (order : List (String × Behavior V)) (sched : List ((String × Behavior V) × Outcome))
    (hconc : e.runConcurrently = true)
    (hmem : ((n, f), Outcome.timedOut msg) ∈ sched)
    (hn : n ≠ nm) :
    ({ name := n } : Observation V) ∈ (run e nm order sched).candidates ∧
    e.resultErr "timeout" msg ∈ (run e nm order sched).errors ∧
    (∀ (u v : List ((String × Behavior V) × Outcome)) (g : Behavior V),
      sched = u ++ ((nm, g), Outcome.completed) :: v → (∀ p ∈ v, p.1.1 ≠ nm) →
      (run e nm order sched).control = some (observe e nm (some g))) := by
  refine ⟨?_, ?_, ?_⟩
  · rw [run_candidates, runPre_candidates, if_neg (by simp [hconc])]
    have hobs : (toObservationResult e ((n, f), Outcome.timedOut msg)).obs =
        { name := n } := rfl
    refine hobs ▸ mem_collectCandidates nm _ _ (List.mem_map_of_mem _ hmem) ?_
    rw [toObservationResult_name]
    exact hn
  · apply run_errors_of_pre
    rw [runPre_conc_eq e nm order sched hconc, runConcurrentFrom_eq]
    have hto : e.resultErr "timeout" msg ∈
        collectTimeouts e (sched.map (toObservationResult e)) :=
      mem_collectTimeouts e _ (toObservationResult e ((n, f), Outcome.timedOut msg)) msg
        (List.mem_map_of_mem _ hmem) rfl
    cases hlc : lastControl nm (sched.map (toObservationResult e)) none with
    | none => exact List.mem_append_right _ hto
    | some c0 => exact List.mem_append_left _ (List.mem_append_right _ hto)
  · intro u v g hsched hv
    subst hsched
    rw [run_control, runPre_conc_eq e nm order _ hconc, runConcurrentFrom_eq,
      lastControl_of_split e nm u v g Outcome.completed hv]
    rfl

theorem c4_amended_witness :
    ({ name := "candidate" } : Observation Nat) ∈ (run eConcT "control" [] schedT).candidates ∧
    eConcT.resultErr "timeout" "context deadline exceeded" ∈
      (run eConcT "control" [] schedT).errors ∧
    (run eConcT "control" [] schedT).control = some (observe eConcT "control" (some (bNat 1))) := by
  have h := c4_amended_timeout eConcT "control" "candidate" (bNat 1)
    "context deadline exceeded" [] schedT rfl
    (List.mem_cons_of_mem _ (List.mem_cons_self _ _)) (by decide)
  refine ⟨h.1, h.2.1, h.2.2 [] [(("candidate", bNat 1), Outcome.timedOut "context deadline exceeded")]
    (bNat 1) rfl ?_⟩
  intro p hp
  rw [List.mem_singleton] at hp
  subst hp
  decide

/-- C9: a candidate recorded as timed out is still classified against the
control: its slot observation has nil error and nil value, so it appears
among the candidates, matching it against an error-free control invokes
the comparator with the control's value and nil, and it lands in
Mismatched or Ignored according to the comparator's and the ignore
predicates' verdicts rather than being excluded from classification. -/
theorem c9_timeout_classified (e : Experiment V) (nm n : String) (f : Behavior V) (msg : String)
    (order : List (String × Behavior V)) (sched : List ((String × Behavior V) × Outcome))
    (hconc : e.runConcurrently = true)
    (hmem : ((n, f), Outcome.timedOut msg) ∈ sched)
    (hn : n ≠ nm) :
    ({ name := n } : Observation V) ∈ (run e nm order sched).candidates ∧
    (∀ c, (run e nm order sched).control = some c → c.err = none →
      matching e c { name := n } = e.comparator c.value none) ∧
    (∀ c, (run e nm order sched).control = some c →
      (c.err = none → e.comparator c.value none = (false, none) →
        ignoring e c { name := n } = (false, none) →
        ({ name := n } : Observation V) ∈ (run e nm order sched).mismatched) ∧
      (c.err = none → e.comparator c.value none = (false, none) →
        ignoring e c { name := n } = (true, none) →
        ({ name := n } : Observation V) ∈ (run e nm order sched).ignored)) := by
  have hcand : ({ name := n } : Observation V) ∈ (run e nm order sched).candidates := by
    rw [run_candidates, runPre_candidates, if_neg (by simp [hconc])]
    have hobs : (toObservationResult e ((n, f), Outcome.timedOut msg)).obs =
        { name := n } := rfl
    refine hobs ▸ mem_collectCandidates nm _ _ (List.mem_map_of_mem _ hmem) ?_
    rw [toObservationResult_name]
    exact hn
  refine ⟨hcand, ?_, ?_⟩
  · intro c hc hcerr
    unfold matching
    rw [hcerr]
  · intro c hc
    have hpre : (runPre e nm order sched).control = some c := by
      rw [← run_control]
      exact hc
    rw [runPre_conc_eq e nm order sched hconc, runConcurrentFrom_eq] at hpre
    rcases hlc : lastControl nm (sched.map (toObservationResult e)) none with _ | c0 <;>
      rw [hlc] at hpre
    · exact Option.noConfusion hpre
    · have hcc : c0 = c := Option.some.inj hpre
      subst hcc
      have hcand2 : ({ name := n } : Observation V) ∈
          collectCandidates nm (sched.map (toObservationResult e)) := by
        have hobs : (toObservationResult e ((n, f), Outcome.timedOut msg)).obs =
            { name := n } := rfl
        refine hobs ▸ mem_collectCandidates nm _ _ (List.mem_map_of_mem _ hmem) ?_
        rw [toObservationResult_name]
        exact hn
      constructor
      · intro hcerr hcmp hign
        have hm2 : matching e c0 { name := n } = (false, none) := by
          unfold matching
          rw [hcerr]
          exact hcmp
        have hmv : matchVerdict e c0 { name := n } = false := by
          unfold matchVerdict
          rw [hm2]
        have hiv : ignoreVerdict e c0 { name := n } = false := by
          unfold ignoreVerdict
          rw [hign]
        rw [run_mismatched, runPre_conc_eq e nm order sched hconc, runConcurrentFrom_eq, hlc]
        apply List.mem_filter.mpr
        exact ⟨hcand2, by simp [classifiedMismatched, hmv, hiv]⟩
      · intro hcerr hcmp hign
        have hm2 : matching e c0 { name := n } = (false, none) := by
          unfold matching
          rw [hcerr]
          exact hcmp
        have hmv : matchVerdict e c0 { name := n } = false := by
          unfold matchVerdict
          rw [hm2]
        have hiv : ignoreVerdict e c0 { name := n } = true := by
          unfold ignoreVerdict
          rw [hign]
        rw [run_ignored, runPre_conc_eq e nm order sched hconc, runConcurrentFrom_eq, hlc]
        apply List.mem_filter.mpr
        exact ⟨hcand2, by simp [classifiedIgnored, hmv, hiv]⟩

theorem c9_witness :
    ({ name := "candidate" } : Observation Nat) ∈ (run eConcT "control" [] schedT).mismatched :=
  ((c9_timeout_classified eConcT "control" "candidate" (bNat 1) "context deadline exceeded"
    [] schedT rfl (List.mem_cons_of_mem _ (List.mem_cons_self _ _)) (by decide)).2.2
    { name := "control", value := some 1 } rfl).1 rfl rfl rfl

end Scientist
